import Mathlib

/-!
# Verification of the client-side performance-instrumentation layer

Shallow embedding of the performance instrumentation subsystem of a
browser-based comic-reading application:

* `PerformanceLogger` (src/workspaces/app/src/lib/performance/logger.ts,
  lines 1–143): the named-interval tracker with `start`/`end`/`measure`/
  `measureAsync`.
* `WebVitalsLogger` (same file, lines 144–279): the vitals rating functions.
* `LayoutShiftAnalyzer` (src/workspaces/app/src/lib/performance/layoutShift.ts):
  shift records, windowed total score, per-element statistics and the report.
* The worker-offloading pending-task registry and the data-URL cache of
  `useWorkerImage` (src/workspaces/app/src/foundation/hooks/useWorkerImage.ts).

Modelling conventions:

* JavaScript numbers (high-resolution timestamps, scores, durations) are
  modelled as rationals `ℚ`; the clock `performance.now()` is passed as an
  explicit argument to each operation.
* A JavaScript `Map` is modelled as an association list in insertion order:
  `set` on an existing key replaces in place, a new key is appended at the
  end, `keys().next().value` is the head key.
* `console` output is modelled as a list of structured log entries carried in
  the state, so that "emits a warning / log line" becomes a statement about
  that list.
* A synchronous or asynchronous operation that can throw is modelled as an
  `Except ε α` value: `Except.error e` is a throw/rejection with value `e`.
-/

/-- JavaScript `Map` lookup (`map.get(k)`). -/
def mapGet {α : Type} (m : List (String × α)) (k : String) : Option α :=
  match m with
  | [] => none
  | (k', v) :: rest => if k' = k then some v else mapGet rest k

/-- JavaScript `Map` update (`map.set(k, v)`): replaces in place if the key is
present, otherwise appends, preserving insertion order. -/
def mapSet {α : Type} (m : List (String × α)) (k : String) (v : α) :
    List (String × α) :=
  match m with
  | [] => [(k, v)]
  | (k', v') :: rest => if k' = k then (k, v) :: rest else (k', v') :: mapSet rest k v

/-- JavaScript `Map` deletion (`map.delete(k)`): removes the first entry with
key `k` (the only one, when keys are distinct). -/
def mapDelete {α : Type} (m : List (String × α)) (k : String) :
    List (String × α) :=
  match m with
  | [] => []
  | (k', v') :: rest => if k' = k then rest else (k', v') :: mapDelete rest k

/-- Metadata object `Record<string, any>`, modelled as an association list of
string keys to string-rendered values. -/
abbrev Meta : Type := List (String × String)

/-- Object spread `\x7b...a, ...b\x7d`: all of `a`'s entries not overridden by
`b`, then `b`'s entries. An absent (`undefined`) object spreads to nothing. -/
def mergeMeta (a b : Option Meta) : Meta :=
  let a' : Meta := a.getD []
  let b' : Meta := b.getD []
  a'.filter (fun p => ¬ (b'.map Prod.fst).contains p.1) ++ b'

namespace PerformanceLogger

/-- `PerformanceData` from logger.ts lines 5–11. -/
structure PerformanceData where
  name : String
  startTime : ℚ
  endTime : Option ℚ
  duration : Option ℚ
  metadata : Option Meta
  deriving DecidableEq, Repr

/-- Colour of a finished-interval log line (logger.ts line 56):
red above 100ms, yellow above 50ms, green otherwise. -/
inductive LogColor where
  | red
  | yellow
  | green
  deriving DecidableEq, Repr

/-- `duration > 100 ? red : duration > 50 ? yellow : green`. -/
def logColor (duration : ℚ) : LogColor :=
  if duration > 100 then .red else if duration > 50 then .yellow else .green

/-- One console line emitted by the tracker. -/
inductive LogLine where
  | started (name : String) (metadata : Option Meta)
  | finished (name : String) (duration : ℚ) (color : LogColor) (merged : Meta)
  | warnNoMeasurement (name : String)
  deriving DecidableEq, Repr

/-- State of the `PerformanceLogger` singleton: the `measurements` map, the
`isEnabled` flag (true only when NODE_ENV is `development`), and the console
output so far. -/
structure LoggerState where
  measurements : List (String × PerformanceData)
  isEnabled : Bool
  log : List LogLine
  deriving DecidableEq, Repr

/-- A fresh logger state with the given enablement flag. -/
def loggerInit (enabled : Bool) : LoggerState :=
  { measurements := [], isEnabled := enabled, log := [] }

/-- `start(name, metadata?)`, logger.ts lines 25–36: when disabled, returns
immediately; otherwise overwrites the entry for `name` with a fresh record at
the current time and logs a started line. -/
def start (now : ℚ) (name : String) (metadata : Option Meta)
    (s : LoggerState) : LoggerState :=
  if s.isEnabled = false then s
  else
    { s with
      measurements :=
        mapSet s.measurements name
          { name := name, startTime := now, endTime := none, duration := none,
            metadata := metadata },
      log := s.log ++ [.started name metadata] }

/-- `end(name, metadata?)`, logger.ts lines 41–63: when disabled returns null;
when no entry for `name` exists, warns and returns null; otherwise sets
`endTime` and `duration` on the stored record, logs a severity-coloured
finished line with the spread-merged metadata, and returns the duration.
(`end` is a Lean keyword, hence the underscore.) -/
def end_ (now : ℚ) (name : String) (metadata : Option Meta)
    (s : LoggerState) : Option ℚ × LoggerState :=
  if s.isEnabled = false then (none, s)
  else
    match mapGet s.measurements name with
    | none => (none, { s with log := s.log ++ [.warnNoMeasurement name] })
    | some m =>
      let endTime := now
      let duration := endTime - m.startTime
      let m' := { m with endTime := some endTime, duration := some duration }
      (some duration,
        { s with
          measurements := mapSet s.measurements name m',
          log := s.log ++
            [.finished name duration (logColor duration)
              (mergeMeta m.metadata metadata)] })

/-- `measure(name, fn, metadata?)`, logger.ts lines 87–97. The wrapped
synchronous function is a completed computation `fn : Except ε α`; `t1` is the
clock at the `start` call and `t2` at the `end` call. `errStr` models
`error instanceof Error ? error.message : String(error)`. -/
def measure {ε α : Type} (t1 t2 : ℚ) (errStr : ε → String) (name : String)
    (fn : Except ε α) (metadata : Option Meta) (s : LoggerState) :
    Except ε α × LoggerState :=
  let s1 := start t1 name metadata s
  match fn with
  | .ok r =>
    let s2 := (end_ t2 name none s1).2
    (.ok r, s2)
  | .error e =>
    let s2 := (end_ t2 name (some [("error", errStr e)]) s1).2
    (.error e, s2)

/-- `measureAsync(name, fn, metadata?)`, logger.ts lines 68–82: same contract
as `measure` over an asynchronous operation; the settled promise is again an
`Except ε α`, and the awaits collapse in the single-threaded model. -/
def measureAsync {ε α : Type} (t1 t2 : ℚ) (errStr : ε → String) (name : String)
    (fn : Except ε α) (metadata : Option Meta) (s : LoggerState) :
    Except ε α × LoggerState :=
  let s1 := start t1 name metadata s
  match fn with
  | .ok r =>
    let s2 := (end_ t2 name none s1).2
    (.ok r, s2)
  | .error e =>
    let s2 := (end_ t2 name (some [("error", errStr e)]) s1).2
    (.error e, s2)

/-- `getReport()`, logger.ts lines 102–104: the records whose duration is
defined, in map order. -/
def getReport (s : LoggerState) : List PerformanceData :=
  (s.measurements.map Prod.snd).filter (fun m => m.duration ≠ none)

/-- `clear()`, logger.ts lines 132–134. -/
def clear (s : LoggerState) : LoggerState :=
  { s with measurements := [] }

end PerformanceLogger

namespace WebVitalsLogger

/-- Metric rating, logger.ts line 151. -/
inductive Rating where
  | good
  | needsImprovement
  | poor
  deriving DecidableEq, Repr

/-- `getLCPRating`, logger.ts lines 220–224. -/
def getLCPRating (value : ℚ) : Rating :=
  if value ≤ 2500 then .good
  else if value ≤ 4000 then .needsImprovement
  else .poor

/-- `getFIDRating`, logger.ts lines 226–230. -/
def getFIDRating (value : ℚ) : Rating :=
  if value ≤ 100 then .good
  else if value ≤ 300 then .needsImprovement
  else .poor

/-- `getCLSRating`, logger.ts lines 232–236. -/
def getCLSRating (value : ℚ) : Rating :=
  if value ≤ 1/10 then .good
  else if value ≤ 1/4 then .needsImprovement
  else .poor

/-- `getFCPRating`, logger.ts lines 238–242. -/
def getFCPRating (value : ℚ) : Rating :=
  if value ≤ 1800 then .good
  else if value ≤ 3000 then .needsImprovement
  else .poor

/-- `getTTFBRating`, logger.ts lines 244–248. -/
def getTTFBRating (value : ℚ) : Rating :=
  if value ≤ 800 then .good
  else if value ≤ 1800 then .needsImprovement
  else .poor

end WebVitalsLogger

namespace LayoutShiftAnalyzer

/-- A DOM rectangle, as used by shift sources. -/
structure DOMRect where
  x : ℚ
  y : ℚ
  width : ℚ
  height : ℚ
  deriving DecidableEq, Repr

/-- The data `getElementSelector` reads from `element.parentElement`: its
tag name, class list, and whether the parent is `document.body`. -/
structure ParentInfo where
  tagName : String
  className : String
  isBody : Bool
  deriving DecidableEq, Repr

/-- A DOM element reference with the data `getElementSelector` reads: tag
name, `id`, `className`, and the parent element (absent for a detached
root). -/
structure Element where
  tagName : String
  idAttr : String
  className : String
  parentElement : Option ParentInfo
  deriving DecidableEq, Repr

/-- Collapse each maximal run of whitespace into a single dot: the regex
replace of whitespace runs by a dot in `getElementSelector`. -/
def collapseWs : List Char → List Char
  | [] => []
  | c :: rest =>
    if c.isWhitespace then
      match collapseWs rest with
      | '.' :: tail => '.' :: tail
      | tail => '.' :: tail
    else c :: collapseWs rest

/-- `className.replace` of whitespace runs with a dot. -/
def replaceWsWithDots (s : String) : String :=
  ⟨collapseWs s.data⟩

/-- `getElementSelector(element)`, layoutShift.ts lines 91–108: tag name,
then an id part, then the dot-joined class list; if the element has a parent
other than `document.body`, the parent's tag and first class are put in
front. -/
def getElementSelector (element : Element) : String :=
  let tagName := element.tagName.toLower
  let idPart := if element.idAttr ≠ "" then "#" ++ element.idAttr else ""
  let classes :=
    if element.className ≠ "" then "." ++ replaceWsWithDots element.className
    else ""
  let selector := tagName ++ idPart ++ classes
  match element.parentElement with
  | some parent =>
    if parent.isBody then selector
    else
      let parentTag := parent.tagName.toLower
      let parentClass :=
        if parent.className ≠ "" then
          "." ++ ((parent.className.splitOn " ").headD "")
        else ""
      parentTag ++ parentClass ++ " > " ++ selector
  | none => selector

/-- One entry of `sources` on a layout-shift observation entry. -/
structure ShiftSource where
  node : Element
  currentRect : DOMRect
  previousRect : DOMRect
  deriving DecidableEq, Repr

/-- `LayoutShiftDetail`, layoutShift.ts lines 5–14. -/
structure LayoutShiftDetail where
  score : ℚ
  timestamp : ℚ
  sources : List ShiftSource
  hadRecentInput : Bool
  deriving DecidableEq, Repr

/-- A raw layout-shift observation entry as delivered by the browser's
observer: its `entryType`, `startTime`, shift `value`, `sources`, and
`hadRecentInput` flag. -/
structure ShiftEntry where
  entryType : String
  startTime : ℚ
  value : ℚ
  sources : List ShiftSource
  hadRecentInput : Bool
  deriving DecidableEq, Repr

/-- State of the `LayoutShiftAnalyzer` singleton: the stored shift sequence
and the development-mode flag. -/
structure AnalyzerState where
  shifts : List LayoutShiftDetail
  isEnabled : Bool
  deriving DecidableEq, Repr

/-- A fresh analyzer state. -/
def analyzerInit (enabled : Bool) : AnalyzerState :=
  { shifts := [], isEnabled := enabled }

/-- The observer callback body for one entry, layoutShift.ts lines 31–49:
non-layout-shift entries are ignored; entries with `hadRecentInput` are
skipped; otherwise a `LayoutShiftDetail` is built and pushed. -/
def processEntry (s : AnalyzerState) (entry : ShiftEntry) : AnalyzerState :=
  if entry.entryType = "layout-shift" then
    if entry.hadRecentInput then s
    else
      { s with
        shifts := s.shifts ++
          [{ score := entry.value, timestamp := entry.startTime,
             sources := entry.sources,
             hadRecentInput := entry.hadRecentInput }] }
  else s

/-- Severity of a single shift score, `getShiftSeverity`,
layoutShift.ts lines 85–89. -/
inductive Severity where
  | low
  | medium
  | high
  deriving DecidableEq, Repr

/-- `getShiftSeverity(score)`: `< 0.01` low, `< 0.1` medium, else high. -/
def getShiftSeverity (score : ℚ) : Severity :=
  if score < 1/100 then .low
  else if score < 1/10 then .medium
  else .high

/-- The shifts inside the trailing 5000ms window,
layoutShift.ts line 126. -/
def windowShifts (now : ℚ) (s : AnalyzerState) : List LayoutShiftDetail :=
  s.shifts.filter (fun shift => now - shift.timestamp ≤ 5000)

/-- `getTotalScore()`, layoutShift.ts lines 123–129: the reduce-sum of the
scores of the windowed shifts. The state is read, never written. -/
def getTotalScore (now : ℚ) (s : AnalyzerState) : ℚ :=
  (windowShifts now s).foldl (fun total shift => total + shift.score) 0

/-- Per-element accumulator of `getShiftsByElement`: `count` and
`totalScore`. -/
structure ElemAgg where
  count : Nat
  totalScore : ℚ
  deriving DecidableEq, Repr

/-- Per-element statistics with the derived average. -/
structure ElemStats where
  count : Nat
  totalScore : ℚ
  avgScore : ℚ
  deriving DecidableEq, Repr

/-- One step of the accumulation in `getShiftsByElement`: bump the entry for
`selector` by one occurrence of `score`, creating it (at the end, matching
object-key insertion order) if absent. -/
def bumpStats (acc : List (String × ElemAgg)) (selector : String) (score : ℚ) :
    List (String × ElemAgg) :=
  match mapGet acc selector with
  | none => acc ++ [(selector, { count := 1, totalScore := score })]
  | some a =>
    mapSet acc selector { count := a.count + 1, totalScore := a.totalScore + score }

/-- `getShiftsByElement()`, layoutShift.ts lines 131–155: group every stored
shift's sources by element selector, accumulating count and total score, then
derive the average. -/
def getShiftsByElement (s : AnalyzerState) : List (String × ElemStats) :=
  let agg := s.shifts.foldl
    (fun acc shift =>
      shift.sources.foldl
        (fun acc' source => bumpStats acc' (getElementSelector source.node) shift.score)
        acc)
    []
  agg.map (fun p =>
    (p.1, { count := p.2.count, totalScore := p.2.totalScore,
            avgScore := p.2.totalScore / (p.2.count : ℚ) }))

/-- Severity annotation used on each element of `printReport`'s top list,
layoutShift.ts line 174: `avg > 0.1` high (red), `avg > 0.01` medium
(yellow), else low (green). -/
def topElementSeverity (avgScore : ℚ) : Severity :=
  if avgScore > 1/10 then .high
  else if avgScore > 1/100 then .medium
  else .low

/-- Colour of the overall windowed score line, layoutShift.ts line 163:
`> 0.25` high (red), `> 0.1` medium (yellow), else low (green). -/
def totalScoreSeverity (totalScore : ℚ) : Severity :=
  if totalScore > 1/4 then .high
  else if totalScore > 1/10 then .medium
  else .low

/-- Descending order on per-element total score, as used by `printReport`'s
comparator. -/
def descByTotalScore (a b : String × ElemStats) : Prop :=
  b.2.totalScore ≤ a.2.totalScore

instance : DecidableRel descByTotalScore := fun a b =>
  inferInstanceAs (Decidable (b.2.totalScore ≤ a.2.totalScore))

instance : IsTotal (String × ElemStats) descByTotalScore :=
  ⟨fun a b => le_total b.2.totalScore a.2.totalScore⟩

instance : IsTrans (String × ElemStats) descByTotalScore :=
  ⟨fun _ _ _ h h' => le_trans h' h⟩

/-- A printed line of the top-elements list in the layout-shift report. -/
structure ReportEntry where
  selector : String
  count : Nat
  totalScore : ℚ
  avgScore : ℚ
  severity : Severity
  deriving DecidableEq, Repr

/-- The structured content of `printReport()`'s console output. -/
structure ShiftReport where
  totalScore : ℚ
  totalSeverity : Severity
  elements : List ReportEntry
  deriving DecidableEq, Repr

/-- `printReport()`, layoutShift.ts lines 157–181: nothing when disabled;
otherwise the windowed total score with its overall severity colour and the
top 10 elements sorted by descending total score, each annotated with the
severity of its average score. -/
def printReport (now : ℚ) (s : AnalyzerState) : Option ShiftReport :=
  if s.isEnabled = false then none
  else
    some
      { totalScore := getTotalScore now s,
        totalSeverity := totalScoreSeverity (getTotalScore now s),
        elements :=
          (((getShiftsByElement s).insertionSort descByTotalScore).take
            10).map (fun p =>
            { selector := p.1, count := p.2.count,
              totalScore := p.2.totalScore, avgScore := p.2.avgScore,
              severity := topElementSeverity p.2.avgScore }) }

/-- `clear()`, layoutShift.ts lines 183–185. -/
def clear (s : AnalyzerState) : AnalyzerState :=
  { s with shifts := [] }

end LayoutShiftAnalyzer

/-! ## Helper lemmas on the JavaScript `Map` model -/

theorem mapGet_mapSet_self {α : Type} (m : List (String × α)) (k : String)
    (v : α) : mapGet (mapSet m k v) k = some v := by
  induction m with
  | nil => simp [mapSet, mapGet]
  | cons p rest ih =>
    obtain ⟨k', v'⟩ := p
    by_cases h : k' = k <;> simp [mapSet, mapGet, h, ih]

theorem mem_keys_mapSet {α : Type} (m : List (String × α)) (k k'' : String)
    (v : α) :
    k'' ∈ (mapSet m k v).map Prod.fst ↔ k'' = k ∨ k'' ∈ m.map Prod.fst := by
  induction m with
  | nil => simp [mapSet]
  | cons p rest ih =>
    obtain ⟨k', v'⟩ := p
    by_cases h : k' = k
    · subst h
      by_cases h' : k'' = k' <;> simp [mapSet, h', or_comm]
    · simp only [mapSet, if_neg h, List.map_cons, List.mem_cons, ih]
      tauto

theorem nodup_keys_mapSet {α : Type} (m : List (String × α)) (k : String)
    (v : α) (h : (m.map Prod.fst).Nodup) :
    ((mapSet m k v).map Prod.fst).Nodup := by
  induction m with
  | nil => simp [mapSet]
  | cons p rest ih =>
    obtain ⟨k', v'⟩ := p
    simp only [List.map_cons, List.nodup_cons] at h
    by_cases hk : k' = k
    · subst hk
      simpa [mapSet] using h
    · simp only [mapSet, if_neg hk, List.map_cons, List.nodup_cons]
      refine ⟨?_, ih h.2⟩
      rw [mem_keys_mapSet]
      push_neg
      exact ⟨hk, h.1⟩

theorem mapGet_eq_none_iff {α : Type} (m : List (String × α)) (k : String) :
    mapGet m k = none ↔ k ∉ m.map Prod.fst := by
  induction m with
  | nil => simp [mapGet]
  | cons p rest ih =>
    obtain ⟨k', v'⟩ := p
    by_cases h : k' = k
    · subst h; simp [mapGet]
    · simp only [mapGet, if_neg h, List.map_cons, List.mem_cons, ih]
      constructor
      · intro hk
        push_neg
        exact ⟨fun hc => h hc.symm, hk⟩
      · intro hk
        push_neg at hk
        exact hk.2

theorem mapSet_of_not_mem {α : Type} (m : List (String × α)) (k : String)
    (v : α) (h : k ∉ m.map Prod.fst) : mapSet m k v = m ++ [(k, v)] := by
  induction m with
  | nil => simp [mapSet]
  | cons p rest ih =>
    obtain ⟨k', v'⟩ := p
    simp only [List.map_cons, List.mem_cons] at h
    push_neg at h
    have hne : ¬ k' = k := fun hc => h.1 hc.symm
    simp [mapSet, if_neg hne, ih h.2]

/-- Number of entries of the map whose key is `k`. -/
def keyCount {α : Type} (m : List (String × α)) (k : String) : Nat :=
  (m.filter (fun p => p.1 == k)).length

theorem keyCount_eq_zero {α : Type} (m : List (String × α)) (k : String)
    (h : k ∉ m.map Prod.fst) : keyCount m k = 0 := by
  induction m with
  | nil => rfl
  | cons p rest ih =>
    obtain ⟨k', v'⟩ := p
    simp only [List.map_cons, List.mem_cons] at h
    push_neg at h
    have hne : (k' == k) = false :=
      beq_eq_false_iff_ne.mpr (fun hc => h.1 hc.symm)
    simpa [keyCount, List.filter_cons, hne] using ih h.2

theorem keyCount_mapSet_nodup {α : Type} (m : List (String × α)) (k : String)
    (v : α) (h : (m.map Prod.fst).Nodup) : keyCount (mapSet m k v) k = 1 := by
  induction m with
  | nil => simp [mapSet, keyCount, List.filter_cons]
  | cons p rest ih =>
    obtain ⟨k', v'⟩ := p
    simp only [List.map_cons, List.nodup_cons] at h
    by_cases hk : k' = k
    · subst hk
      have h0 : keyCount rest k' = 0 := keyCount_eq_zero rest k' h.1
      simp only [keyCount] at h0
      simp [mapSet, if_pos rfl, keyCount, List.filter_cons, h0]
    · have hne : (k' == k) = false := beq_eq_false_iff_ne.mpr hk
      simpa [mapSet, if_neg hk, keyCount, List.filter_cons, hne] using ih h.2

theorem mem_mergeMeta_right (a : Option Meta) (b : Meta) (p : String × String)
    (hp : p ∈ b) : p ∈ mergeMeta a (some b) := by
  unfold mergeMeta
  simp only [Option.getD_some]
  exact List.mem_append_right _ hp

/-! ## Claims about the vitals rating functions -/

namespace WebVitalsLogger

/-- Characterisation of the common three-tier rating shape. -/
theorem threeTier_iff (a b v : ℚ) (hab : a < b) :
    ((if v ≤ a then Rating.good
      else if v ≤ b then Rating.needsImprovement else Rating.poor) =
        Rating.good ↔ v ≤ a) ∧
    ((if v ≤ a then Rating.good
      else if v ≤ b then Rating.needsImprovement else Rating.poor) =
        Rating.needsImprovement ↔ a < v ∧ v ≤ b) ∧
    ((if v ≤ a then Rating.good
      else if v ≤ b then Rating.needsImprovement else Rating.poor) =
        Rating.poor ↔ b < v) := by
  refine ⟨?_, ?_, ?_⟩ <;> split_ifs with h1 h2 <;> simp <;>
    first
      | exact h1
      | exact h2
      | exact not_le.mp h1
      | exact not_le.mp h2
      | exact ⟨not_le.mp h1, h2⟩
      | (intro hv; linarith)
      | linarith

/-- C6: the five rating functions implement the threshold table with
inclusive lower bounds — LCP good iff `≤ 2500`, needs-improvement iff in
`(2500, 4000]`, else poor; FID at `100`/`300`; CLS at `0.1`/`0.25`; FCP at
`1800`/`3000`; TTFB at `800`/`1800` — and in particular LCP 2500 is good,
LCP 2500.01 is needs-improvement, CLS 0.25 is needs-improvement and CLS
0.2500001 is poor. -/
theorem C6_vitals_thresholds (v : ℚ) :
    (getLCPRating v = .good ↔ v ≤ 2500) ∧
    (getLCPRating v = .needsImprovement ↔ 2500 < v ∧ v ≤ 4000) ∧
    (getLCPRating v = .poor ↔ 4000 < v) ∧
    (getFIDRating v = .good ↔ v ≤ 100) ∧
    (getFIDRating v = .needsImprovement ↔ 100 < v ∧ v ≤ 300) ∧
    (getFIDRating v = .poor ↔ 300 < v) ∧
    (getCLSRating v = .good ↔ v ≤ 1/10) ∧
    (getCLSRating v = .needsImprovement ↔ 1/10 < v ∧ v ≤ 1/4) ∧
    (getCLSRating v = .poor ↔ 1/4 < v) ∧
    (getFCPRating v = .good ↔ v ≤ 1800) ∧
    (getFCPRating v = .needsImprovement ↔ 1800 < v ∧ v ≤ 3000) ∧
    (getFCPRating v = .poor ↔ 3000 < v) ∧
    (getTTFBRating v = .good ↔ v ≤ 800) ∧
    (getTTFBRating v = .needsImprovement ↔ 800 < v ∧ v ≤ 1800) ∧
    (getTTFBRating v = .poor ↔ 1800 < v) ∧
    getLCPRating 2500 = .good ∧
    getLCPRating (250001/100) = .needsImprovement ∧
    getCLSRating (1/4) = .needsImprovement ∧
    getCLSRating (2500001/10000000) = .poor := by
  have hl := threeTier_iff 2500 4000 v (by norm_num)
  have hf := threeTier_iff 100 300 v (by norm_num)
  have hc := threeTier_iff (1/10) (1/4) v (by norm_num)
  have hp := threeTier_iff 1800 3000 v (by norm_num)
  have ht := threeTier_iff 800 1800 v (by norm_num)
  unfold getLCPRating getFIDRating getCLSRating getFCPRating getTTFBRating
  refine ⟨hl.1, hl.2.1, hl.2.2, hf.1, hf.2.1, hf.2.2, hc.1, hc.2.1, hc.2.2,
    hp.1, hp.2.1, hp.2.2, ht.1, ht.2.1, ht.2.2, ?_, ?_, ?_, ?_⟩ <;> norm_num

end WebVitalsLogger

/-! ## Claims about the layout-stability analyzer -/

namespace LayoutShiftAnalyzer

/-- Folding the score sum from an arbitrary accumulator. -/
theorem foldl_add_score (l : List LayoutShiftDetail) (a : ℚ) :
    l.foldl (fun total shift => total + shift.score) a =
      a + (l.map LayoutShiftDetail.score).sum := by
  induction l generalizing a with
  | nil => simp
  | cons shift rest ih => simp [ih, add_assoc]

/-- The claim's own description of the windowed total: walk the stored
sequence and add the score of exactly those records whose timestamp `t`
satisfies `now - t ≤ 5000`. -/
def totalScoreSpec (now : ℚ) : List LayoutShiftDetail → ℚ
  | [] => 0
  | shift :: rest =>
    (if now - shift.timestamp ≤ 5000 then shift.score else 0) +
      totalScoreSpec now rest

theorem sum_window_eq_spec (now : ℚ) (l : List LayoutShiftDetail) :
    ((l.filter (fun shift => now - shift.timestamp ≤ 5000)).map
      LayoutShiftDetail.score).sum = totalScoreSpec now l := by
  induction l with
  | nil => simp [totalScoreSpec]
  | cons shift rest ih =>
    by_cases h : now - shift.timestamp ≤ 5000
    · rw [List.filter_cons_of_pos (by simpa using h), totalScoreSpec,
        if_pos h, List.map_cons, List.sum_cons, ih]
    · rw [List.filter_cons_of_neg (by simpa using h), totalScoreSpec,
        if_neg h, ih, zero_add]

/-- C4: `getTotalScore()` returns the sum of the scores of exactly those
stored shift records whose timestamp `t` satisfies `now - t ≤ 5000`: it
coincides with the record-by-record windowed sum, membership in the window
is exactly the `now - t ≤ 5000` test over the full stored sequence, and any
record with `t < now - 5000` is excluded; the state is read, not mutated, so
no record is removed. -/
theorem C4_total_score_window (now : ℚ) (s : AnalyzerState) :
    getTotalScore now s = totalScoreSpec now s.shifts ∧
    (∀ shift, shift ∈ windowShifts now s ↔
      shift ∈ s.shifts ∧ now - shift.timestamp ≤ 5000) ∧
    (∀ shift ∈ s.shifts, shift.timestamp < now - 5000 →
      shift ∉ windowShifts now s) := by
  refine ⟨?_, ?_, ?_⟩
  · rw [getTotalScore, foldl_add_score, zero_add, windowShifts,
      sum_window_eq_spec]
  · intro shift
    simp [windowShifts, List.mem_filter]
  · intro shift _ hold
    simp only [windowShifts, List.mem_filter, decide_eq_true_eq, not_and]
    intro _ hle
    linarith

/-- C4 witness: with records at timestamps 0 and 3000 and "now" = 6000, the
record at 0 is outside the window. -/
theorem C4_total_score_window_witness :
    ({ score := 5, timestamp := 0, sources := [],
       hadRecentInput := false } : LayoutShiftDetail) ∉
      windowShifts 6000
        { shifts :=
            [{ score := 5, timestamp := 0, sources := [],
               hadRecentInput := false },
             { score := 3/100, timestamp := 3000, sources := [],
               hadRecentInput := false }],
          isEnabled := true } := by
  exact (C4_total_score_window 6000 _).2.2 _ (by simp) (by norm_num)

/-- `processEntry` never stores a record with `hadRecentInput`. -/
theorem processEntry_preserves_noInput (s : AnalyzerState)
    (entry : ShiftEntry)
    (h : s.shifts.all (fun shift => !shift.hadRecentInput) = true) :
    (processEntry s entry).shifts.all
      (fun shift => !shift.hadRecentInput) = true := by
  unfold processEntry
  split
  · split
    · exact h
    · rename_i hin
      simp only [Bool.not_eq_true] at hin
      simp [List.all_append, h, hin]
  · exact h

/-- C5: an observation entry with `hadRecentInput = true` never appends a
shift record — processing it leaves the analyzer state (hence the stored
record count) unchanged — and consequently, starting from any state all of
whose records have `hadRecentInput = false` (such as the initial state),
every record ever stored has `hadRecentInput = false`. -/
theorem C5_recent_input_never_recorded (s : AnalyzerState)
    (entry : ShiftEntry) (hin : entry.hadRecentInput = true)
    (s' : AnalyzerState) (entries : List ShiftEntry)
    (hall : s'.shifts.all (fun shift => !shift.hadRecentInput) = true) :
    processEntry s entry = s ∧
    (entries.foldl processEntry s').shifts.all
      (fun shift => !shift.hadRecentInput) = true := by
  constructor
  · unfold processEntry
    split
    · simp [hin]
    · rfl
  · clear hin
    induction entries generalizing s' with
    | nil => exact hall
    | cons e rest ih =>
      exact ih (processEntry s' e) (processEntry_preserves_noInput s' e hall)

/-- C5 witness: a concrete input-driven entry against the empty analyzer. -/
theorem C5_recent_input_never_recorded_witness :
    processEntry (analyzerInit true)
      { entryType := "layout-shift", startTime := 0, value := 1/2,
        sources := [], hadRecentInput := true } = analyzerInit true ∧
    (([{ entryType := "layout-shift", startTime := 0, value := 1/2,
         sources := [], hadRecentInput := true }] :
        List ShiftEntry).foldl processEntry (analyzerInit true)).shifts.all
      (fun shift => !shift.hadRecentInput) = true := by
  exact C5_recent_input_never_recorded (analyzerInit true) _ rfl
    (analyzerInit true) _ rfl

/-- C8 (amended): when `printReport()` prints, its element list contains at
most 10 elements, sorted by descending total score, and each element is
annotated with the severity of its own average score computed as
`avg > 0.1` high, `avg > 0.01` medium, else low; this agrees with the
single-shift classification `getShiftSeverity` at every average other than
exactly `0.01` and `0.1`. -/
theorem C8_report_top_elements (now : ℚ) (s : AnalyzerState)
    (report : ShiftReport) (h : printReport now s = some report) :
    report.elements.length ≤ 10 ∧
    report.elements.Pairwise (fun a b => b.totalScore ≤ a.totalScore) ∧
    (∀ entry ∈ report.elements,
      entry.severity = topElementSeverity entry.avgScore) ∧
    (∀ q : ℚ, q ≠ 1/100 → q ≠ 1/10 →
      topElementSeverity q = getShiftSeverity q) := by
  unfold printReport at h
  by_cases he : s.isEnabled = false
  · rw [if_pos he] at h
    exact absurd h (by simp)
  · rw [if_neg he] at h
    have hrep := Option.some.inj h
    subst hrep
    refine ⟨?_, ?_, ?_, ?_⟩
    · simp only [List.length_map, List.length_take]
      exact min_le_left _ _
    · have hsorted :
          (List.insertionSort descByTotalScore
            (getShiftsByElement s)).Pairwise descByTotalScore :=
        List.sorted_insertionSort descByTotalScore (getShiftsByElement s)
      have htake :
          ((List.insertionSort descByTotalScore
            (getShiftsByElement s)).take 10).Pairwise descByTotalScore :=
        hsorted.sublist (List.take_sublist 10 _)
      exact List.pairwise_map.mpr htake
    · intro entry hmem
      obtain ⟨p, hp, hpe⟩ := List.mem_map.mp hmem
      rw [← hpe]
    · intro q hq1 hq2
      unfold topElementSeverity getShiftSeverity
      rcases lt_trichotomy q (1/100) with hlt | heq | hgt
      · rw [if_neg (by linarith : ¬ q > 1/10),
          if_neg (by linarith : ¬ q > 1/100), if_pos hlt]
      · exact absurd heq hq1
      · rcases lt_trichotomy q (1/10) with hlt2 | heq2 | hgt2
        · rw [if_neg (by linarith : ¬ q > 1/10), if_pos hgt,
            if_neg (by linarith : ¬ q < 1/100), if_pos hlt2]
        · exact absurd heq2 hq2
        · rw [if_pos hgt2, if_neg (by linarith : ¬ q < 1/100),
            if_neg (by linarith : ¬ q < 1/10)]

/-- C8 witness: the report of an enabled analyzer with no shifts. -/
theorem C8_report_top_elements_witness :
    printReport 0 (analyzerInit true) =
      some { totalScore := 0, totalSeverity := .low, elements := [] } ∧
    ((printReport 0 (analyzerInit true)).map
      (fun r => r.elements.length)).getD 99 ≤ 10 := by
  have hrep : printReport 0 (analyzerInit true) =
      some { totalScore := 0, totalSeverity := .low, elements := [] } := by
    norm_num [printReport, analyzerInit, getTotalScore, windowShifts,
      getShiftsByElement, totalScoreSeverity, List.insertionSort]
  have h := C8_report_top_elements 0 (analyzerInit true) _ hrep
  refine ⟨hrep, ?_⟩
  rw [hrep]
  simpa using h.1

/-- C8 counterexample: the claim as stated is false at the boundary — with a
single stored shift of score 0.01 on one element, the element's average is
0.01; the report annotates it low (`0.01 > 0.01` is false), while the
single-shift classification `getShiftSeverity` (`0.01 < 0.01` is false)
rates 0.01 as medium. -/
theorem C8_boundary_counterexample :
    (printReport 0
        { shifts :=
            [{ score := 1/100, timestamp := 0,
               sources :=
                 [{ node := { tagName := "div", idAttr := "",
                              className := "", parentElement := none },
                    currentRect := ⟨0, 0, 0, 0⟩,
                    previousRect := ⟨0, 0, 0, 0⟩ }],
               hadRecentInput := false }],
          isEnabled := true }).map
      (fun r => r.elements.map ReportEntry.severity) =
        some [Severity.low] ∧
    (printReport 0
        { shifts :=
            [{ score := 1/100, timestamp := 0,
               sources :=
                 [{ node := { tagName := "div", idAttr := "",
                              className := "", parentElement := none },
                    currentRect := ⟨0, 0, 0, 0⟩,
                    previousRect := ⟨0, 0, 0, 0⟩ }],
               hadRecentInput := false }],
          isEnabled := true }).map
      (fun r => r.elements.map (fun entry =>
        getShiftSeverity entry.avgScore)) = some [Severity.medium] := by
  constructor <;>
    norm_num [printReport, getTotalScore, windowShifts, getShiftsByElement,
      bumpStats, mapGet, totalScoreSeverity, topElementSeverity,
      getShiftSeverity, List.insertionSort, List.orderedInsert,
      List.filter_cons]

end LayoutShiftAnalyzer

namespace WorkerImage

/-- How a pending task's promise settled. -/
inductive TaskResult where
  | resolved (dataUrl : String)
  | rejected (errorMessage : String)
  deriving DecidableEq, Repr

/-- State of the worker offloading machinery in useWorkerImage.ts: the
`pendingTasks` registry (here just the set of registered correlation keys, in
insertion order — each key identifies the promise waiting on it) and, as the
observable outcome, the list of settlements performed so far. -/
structure WorkerState where
  pendingTasks : List String
  settled : List (String × TaskResult)
  deriving DecidableEq, Repr

/-- The payload of an `IMAGE_PROCESSED` message: either an `error` field or a
`dataUrl`. -/
abbrev ReplyPayload : Type := Except String String

instance : DecidableEq ReplyPayload := fun
  | .ok x, .ok y =>
    if h : x = y then .isTrue (congrArg Except.ok h)
    else .isFalse (fun hc => h (Except.ok.inj hc))
  | .ok _, .error _ => .isFalse Except.noConfusion
  | .error _, .ok _ => .isFalse Except.noConfusion
  | .error x, .error y =>
    if h : x = y then .isTrue (congrArg Except.error h)
    else .isFalse (fun hc => h (Except.error.inj hc))

/-- `imageWorker.onmessage`, useWorkerImage.ts lines 66–80: on an
`IMAGE_PROCESSED` message, if the cache key is registered, the entry is
deleted and the task is rejected (when the payload carries an error) or
resolved (otherwise); a reply for an unregistered key does nothing. -/
def onmessage (s : WorkerState) (cacheKey : String) (payload : ReplyPayload) :
    WorkerState :=
  if cacheKey ∈ s.pendingTasks then
    { pendingTasks := s.pendingTasks.erase cacheKey,
      settled := s.settled ++
        [(cacheKey,
          match payload with
          | .error e => TaskResult.rejected e
          | .ok d => TaskResult.resolved d)] }
  else s

/-- The `setTimeout` callback of `processImageWithWorker`, useWorkerImage.ts
lines 118–123: when the key is still pending after 10000ms, the entry is
deleted and the task is rejected with the timeout error; otherwise nothing
happens. -/
def fireTimeout (s : WorkerState) (cacheKey : String) : WorkerState :=
  if cacheKey ∈ s.pendingTasks then
    { pendingTasks := s.pendingTasks.erase cacheKey,
      settled := s.settled ++
        [(cacheKey, TaskResult.rejected "Worker processing timeout")] }
  else s

/-- An event hitting the registry after a task is registered: a worker reply
or a timeout firing. -/
inductive WorkerEvent where
  | reply (cacheKey : String) (payload : ReplyPayload)
  | timeoutFired (cacheKey : String)
  deriving DecidableEq, Repr

/-- Dispatch one event to its handler. -/
def workerStep (s : WorkerState) : WorkerEvent → WorkerState
  | .reply cacheKey payload => onmessage s cacheKey payload
  | .timeoutFired cacheKey => fireTimeout s cacheKey

/-- Run a sequence of events. -/
def workerRun (s : WorkerState) (events : List WorkerEvent) : WorkerState :=
  events.foldl workerStep s

/-- The cache key template of `useWorkerImage`, useWorkerImage.ts line 146. -/
def mkCacheKey (imageId : String) (width height quality : ℚ)
    (format : String) : String :=
  imageId ++ "-" ++ toString width ++ "-" ++ toString height ++ "-" ++
    toString quality ++ "-" ++ format

/-- The cache-store step, useWorkerImage.ts lines 227–234: when the cache
already holds at least 100 entries, the first-inserted key is looked up and —
being truthy (non-empty) — deleted; then the new entry is stored. -/
def cacheInsert (cache : List (String × String)) (cacheKey dataUrl : String) :
    List (String × String) :=
  let cache1 :=
    if cache.length ≥ 100 then
      match cache.head? with
      | some first => if first.1 ≠ "" then mapDelete cache first.1 else cache
      | none => cache
    else cache
  mapSet cache1 cacheKey dataUrl

/-- The cache discipline of the `useWorkerImage` body, useWorkerImage.ts
lines 145–151 and 227–236: a key already in the cache is returned directly;
otherwise the freshly computed data URL (`computed`, standing for the whole
decode/draw/encode pipeline) is stored via `cacheInsert` and returned. -/
def cacheLookupOrInsert (cache : List (String × String))
    (cacheKey computed : String) : String × List (String × String) :=
  match mapGet cache cacheKey with
  | some v => (v, cache)
  | none => (computed, cacheInsert cache cacheKey computed)

/-- `onmessage` on a registered key. -/
theorem onmessage_pos (s : WorkerState) (ck : String)
    (payload : ReplyPayload) (hc : ck ∈ s.pendingTasks) :
    onmessage s ck payload =
      { pendingTasks := s.pendingTasks.erase ck,
        settled := s.settled ++
          [(ck, match payload with
               | .error e => TaskResult.rejected e
               | .ok d => TaskResult.resolved d)] } := by
  unfold onmessage
  rw [if_pos hc]

/-- `onmessage` on an unregistered key. -/
theorem onmessage_neg (s : WorkerState) (ck : String)
    (payload : ReplyPayload) (hc : ck ∉ s.pendingTasks) :
    onmessage s ck payload = s := by
  unfold onmessage
  rw [if_neg hc]

/-- `fireTimeout` on a registered key. -/
theorem fireTimeout_pos (s : WorkerState) (ck : String)
    (hc : ck ∈ s.pendingTasks) :
    fireTimeout s ck =
      { pendingTasks := s.pendingTasks.erase ck,
        settled := s.settled ++
          [(ck, TaskResult.rejected "Worker processing timeout")] } := by
  unfold fireTimeout
  rw [if_pos hc]

/-- `fireTimeout` on an unregistered key. -/
theorem fireTimeout_neg (s : WorkerState) (ck : String)
    (hc : ck ∉ s.pendingTasks) : fireTimeout s ck = s := by
  unfold fireTimeout
  rw [if_neg hc]

/-- A step never adds a key to the registry. -/
theorem step_pending_subset (s : WorkerState) (e : WorkerEvent) (k : String)
    (h : k ∈ (workerStep s e).pendingTasks) : k ∈ s.pendingTasks := by
  cases e with
  | reply ck payload =>
    by_cases hc : ck ∈ s.pendingTasks
    · rw [workerStep, onmessage_pos s ck payload hc] at h
      exact List.mem_of_mem_erase h
    · rwa [workerStep, onmessage_neg s ck payload hc] at h
  | timeoutFired ck =>
    by_cases hc : ck ∈ s.pendingTasks
    · rw [workerStep, fireTimeout_pos s ck hc] at h
      exact List.mem_of_mem_erase h
    · rwa [workerStep, fireTimeout_neg s ck hc] at h

/-- A step never removes a settlement. -/
theorem step_settled_mono (s : WorkerState) (e : WorkerEvent)
    (p : String × TaskResult) (h : p ∈ s.settled) :
    p ∈ (workerStep s e).settled := by
  cases e with
  | reply ck payload =>
    by_cases hc : ck ∈ s.pendingTasks
    · rw [workerStep, onmessage_pos s ck payload hc]
      exact List.mem_append_left _ h
    · rwa [workerStep, onmessage_neg s ck payload hc]
  | timeoutFired ck =>
    by_cases hc : ck ∈ s.pendingTasks
    · rw [workerStep, fireTimeout_pos s ck hc]
      exact List.mem_append_left _ h
    · rwa [workerStep, fireTimeout_neg s ck hc]

/-- A step preserves distinctness of the registered keys. -/
theorem step_pending_nodup (s : WorkerState) (e : WorkerEvent)
    (h : s.pendingTasks.Nodup) : (workerStep s e).pendingTasks.Nodup := by
  cases e with
  | reply ck payload =>
    by_cases hc : ck ∈ s.pendingTasks
    · rw [workerStep, onmessage_pos s ck payload hc]
      exact h.erase ck
    · rwa [workerStep, onmessage_neg s ck payload hc]
  | timeoutFired ck =>
    by_cases hc : ck ∈ s.pendingTasks
    · rw [workerStep, fireTimeout_pos s ck hc]
      exact h.erase ck
    · rwa [workerStep, fireTimeout_neg s ck hc]

/-- If a step removes a key from the registry, it settles that key's task. -/
theorem step_settles (s : WorkerState) (e : WorkerEvent) (k : String)
    (hk : k ∈ s.pendingTasks) (hout : k ∉ (workerStep s e).pendingTasks) :
    ∃ r, (k, r) ∈ (workerStep s e).settled := by
  cases e with
  | reply ck payload =>
    by_cases hc : ck ∈ s.pendingTasks
    · rw [workerStep, onmessage_pos s ck payload hc] at hout ⊢
      by_cases hkc : k = ck
      · subst hkc
        exact ⟨_, List.mem_append_right _ (List.mem_singleton_self _)⟩
      · exact absurd ((List.mem_erase_of_ne hkc).mpr hk) hout
    · rw [workerStep, onmessage_neg s ck payload hc] at hout
      exact absurd hk hout
  | timeoutFired ck =>
    by_cases hc : ck ∈ s.pendingTasks
    · rw [workerStep, fireTimeout_pos s ck hc] at hout ⊢
      by_cases hkc : k = ck
      · subst hkc
        exact ⟨_, List.mem_append_right _ (List.mem_singleton_self _)⟩
      · exact absurd ((List.mem_erase_of_ne hkc).mpr hk) hout
    · rw [workerStep, fireTimeout_neg s ck hc] at hout
      exact absurd hk hout

/-- An unregistered key stays unregistered across a whole run. -/
theorem run_not_pending (events : List WorkerEvent) (s : WorkerState)
    (k : String) (h : k ∉ s.pendingTasks) :
    k ∉ (workerRun s events).pendingTasks := by
  induction events generalizing s with
  | nil => exact h
  | cons e rest ih =>
    exact ih (workerStep s e) (fun hc => h (step_pending_subset s e k hc))

/-- Settlements persist across a whole run. -/
theorem run_settled_mono (events : List WorkerEvent) (s : WorkerState)
    (p : String × TaskResult) (h : p ∈ s.settled) :
    p ∈ (workerRun s events).settled := by
  induction events generalizing s with
  | nil => exact h
  | cons e rest ih => exact ih (workerStep s e) (step_settled_mono s e p h)

/-- Liveness: a pending task whose timeout event occurs in the trace ends the
run settled and deregistered. -/
theorem run_settles (events : List WorkerEvent) (s : WorkerState)
    (k : String) (hnd : s.pendingTasks.Nodup) (hk : k ∈ s.pendingTasks)
    (hev : WorkerEvent.timeoutFired k ∈ events) :
    k ∉ (workerRun s events).pendingTasks ∧
    ∃ r, (k, r) ∈ (workerRun s events).settled := by
  induction events generalizing s with
  | nil => exact absurd hev (List.not_mem_nil _)
  | cons e rest ih =>
    by_cases hkp : k ∈ (workerStep s e).pendingTasks
    · rcases List.mem_cons.mp hev with he | he
      · subst he
        exfalso
        apply hnd.not_mem_erase (a := k)
        rwa [workerStep, fireTimeout_pos s k hk] at hkp
      · exact ih (workerStep s e) (step_pending_nodup s e hnd) hkp he
    · obtain ⟨r, hr⟩ := step_settles s e k hk hkp
      exact ⟨run_not_pending rest _ k hkp,
        ⟨r, run_settled_mono rest _ _ hr⟩⟩

/-- C9: every offloaded task registered under its correlation key settles —
a worker reply for a pending key deregisters it and resolves or rejects the
task per the reply; the 10s timeout firing while the key is pending
deregisters it and rejects the task with the timeout error; in both cases
all other keys are untouched; a reply for an unregistered key changes no
state; and any event trace containing the task's timeout event (which
registration always schedules) leaves the task deregistered and settled. -/
theorem C9_offloaded_tasks_settle (s : WorkerState) (k : String)
    (payload : ReplyPayload) (events : List WorkerEvent)
    (hnd : s.pendingTasks.Nodup) (hk : k ∈ s.pendingTasks)
    (hev : WorkerEvent.timeoutFired k ∈ events) :
    (onmessage s k payload).pendingTasks = s.pendingTasks.erase k ∧
    (onmessage s k payload).settled = s.settled ++
      [(k, match payload with
           | .error e => TaskResult.rejected e
           | .ok d => TaskResult.resolved d)] ∧
    (∀ k', k' ≠ k →
      (k' ∈ (onmessage s k payload).pendingTasks ↔ k' ∈ s.pendingTasks)) ∧
    (fireTimeout s k).pendingTasks = s.pendingTasks.erase k ∧
    (fireTimeout s k).settled = s.settled ++
      [(k, TaskResult.rejected "Worker processing timeout")] ∧
    (∀ k', k' ≠ k →
      (k' ∈ (fireTimeout s k).pendingTasks ↔ k' ∈ s.pendingTasks)) ∧
    (∀ t : WorkerState, k ∉ t.pendingTasks → onmessage t k payload = t) ∧
    k ∉ (workerRun s events).pendingTasks ∧
    ∃ r, (k, r) ∈ (workerRun s events).settled := by
  have hrun := run_settles events s k hnd hk hev
  have hmsg : onmessage s k payload =
      { pendingTasks := s.pendingTasks.erase k,
        settled := s.settled ++
          [(k, match payload with
               | .error e => TaskResult.rejected e
               | .ok d => TaskResult.resolved d)] } := by
    unfold onmessage
    rw [if_pos hk]
  have htim : fireTimeout s k =
      { pendingTasks := s.pendingTasks.erase k,
        settled := s.settled ++
          [(k, TaskResult.rejected "Worker processing timeout")] } := by
    unfold fireTimeout
    rw [if_pos hk]
  refine ⟨by rw [hmsg], by rw [hmsg], ?_, by rw [htim], by rw [htim], ?_,
    ?_, hrun.1, hrun.2⟩
  · intro k' hk'
    rw [hmsg]
    exact List.mem_erase_of_ne hk'
  · intro k' hk'
    rw [htim]
    exact List.mem_erase_of_ne hk'
  · intro t ht
    unfold onmessage
    rw [if_neg ht]

/-- C9 witness: a two-task registry, driven by the first task's timeout. -/
theorem C9_offloaded_tasks_settle_witness :
    (["k1", "k2"] : List String).Nodup ∧
    "k1" ∉ (workerRun { pendingTasks := ["k1", "k2"], settled := [] }
      [WorkerEvent.timeoutFired "k1"]).pendingTasks := by
  have h := C9_offloaded_tasks_settle
    { pendingTasks := ["k1", "k2"], settled := [] } "k1"
    (Except.ok "dataUrl") [WorkerEvent.timeoutFired "k1"]
    (by decide) (by decide) (by decide)
  exact ⟨by decide, h.2.2.2.2.2.2.2.1⟩

/-- C10: the data-URL cache never exceeds 100 entries — assuming the cache
invariant (at most 100 distinct-keyed entries, all keys non-empty, as every
generated cache key is), a lookup-or-insert preserves the invariant; a key
already present is returned directly with the cache untouched; when a new
key is inserted into a full cache, the oldest-inserted (head) entry is
evicted first; and every cache key built by `mkCacheKey` is non-empty. -/
theorem C10_cache_bounded (cache : List (String × String))
    (k computed : String) (hlen : cache.length ≤ 100)
    (hnd : (cache.map Prod.fst).Nodup)
    (hne : ∀ p ∈ cache, p.1 ≠ "") (hk : k ≠ "") :
    ((cacheLookupOrInsert cache k computed).2.length ≤ 100 ∧
     ((cacheLookupOrInsert cache k computed).2.map Prod.fst).Nodup ∧
     ∀ p ∈ (cacheLookupOrInsert cache k computed).2, p.1 ≠ "") ∧
    (∀ v0, mapGet cache k = some v0 →
      cacheLookupOrInsert cache k computed = (v0, cache)) ∧
    (mapGet cache k = none → cache.length = 100 →
      ∀ p0 tail, cache = p0 :: tail →
        (cacheLookupOrInsert cache k computed).2 = tail ++ [(k, computed)]) ∧
    (∀ imageId : String, ∀ w h q : ℚ, ∀ format : String,
      mkCacheKey imageId w h q format ≠ "") := by
  have hmk : ∀ imageId : String, ∀ w h q : ℚ, ∀ format : String,
      mkCacheKey imageId w h q format ≠ "" := by
    intro imageId w h q format hcontra
    have hlen0 : (mkCacheKey imageId w h q format).length = 0 := by
      rw [hcontra]
      rfl
    have hdash : ("-" : String).length = 1 := rfl
    unfold mkCacheKey at hlen0
    simp only [String.length_append, hdash] at hlen0
    omega
  rcases hget : mapGet cache k with _ | v
  · -- the key is absent: the computed value is inserted, possibly evicting
    have hnotmem : k ∉ cache.map Prod.fst := (mapGet_eq_none_iff cache k).mp hget
    have hres : cacheLookupOrInsert cache k computed =
        (computed, cacheInsert cache k computed) := by
      unfold cacheLookupOrInsert
      rw [hget]
    by_cases hfull : cache.length ≥ 100
    · have h100 : cache.length = 100 := le_antisymm hlen hfull
      obtain ⟨p0, tail, rfl⟩ : ∃ p0 tail, cache = p0 :: tail := by
        cases cache with
        | nil => simp at h100
        | cons p0 tail => exact ⟨p0, tail, rfl⟩
      have hp0 : p0.1 ≠ "" := hne p0 (List.mem_cons_self _ _)
      have hdel : mapDelete (p0 :: tail) p0.1 = tail := by
        unfold mapDelete
        rw [if_pos rfl]
      have hins : cacheInsert (p0 :: tail) k computed =
          tail ++ [(k, computed)] := by
        unfold cacheInsert
        rw [if_pos hfull]
        simp only [List.head?_cons, if_pos hp0, hdel]
        have hk_tail : k ∉ tail.map Prod.fst := by
          intro hc
          exact hnotmem (List.mem_cons_of_mem _ hc)
        exact mapSet_of_not_mem tail k computed hk_tail
      have htail_len : tail.length = 99 := by
        simpa using h100
      have hkeys : (p0 :: tail).map Prod.fst =
          p0.1 :: tail.map Prod.fst := rfl
      rw [hkeys] at hnd hnotmem
      refine ⟨⟨?_, ?_, ?_⟩, ?_, ?_, hmk⟩
      · rw [hres]
        simp [hins, htail_len]
      · rw [hres]
        simp only [hins, List.map_append, List.map_cons, List.map_nil]
        rw [List.nodup_append]
        refine ⟨(List.nodup_cons.mp hnd).2, List.nodup_singleton _, ?_⟩
        intro a ha hb
        simp only [List.mem_singleton] at hb
        subst hb
        exact hnotmem (List.mem_cons_of_mem _ ha)
      · rw [hres]
        intro p hp
        simp only [hins, List.mem_append, List.mem_singleton] at hp
        rcases hp with hp | hp
        · exact hne p (List.mem_cons_of_mem _ hp)
        · subst hp
          exact hk
      · intro v0 hv0
        simp [hget] at hv0
      · intro _ _ q0 qtail hq
        injection hq with h1 h2
        subst h1
        subst h2
        rw [hres, hins]
    · have hsmall : cache.length < 100 := lt_of_not_ge hfull
      have hins : cacheInsert cache k computed = cache ++ [(k, computed)] := by
        unfold cacheInsert
        rw [if_neg hfull]
        exact mapSet_of_not_mem cache k computed hnotmem
      refine ⟨⟨?_, ?_, ?_⟩, ?_, ?_, hmk⟩
      · rw [hres]
        simp only [hins, List.length_append, List.length_singleton]
        omega
      · rw [hres]
        simp only [hins, List.map_append, List.map_cons, List.map_nil]
        rw [List.nodup_append]
        refine ⟨hnd, List.nodup_singleton _, ?_⟩
        intro a ha hb
        simp only [List.mem_singleton] at hb
        subst hb
        exact hnotmem ha
      · rw [hres]
        intro p hp
        simp only [hins, List.mem_append, List.mem_singleton] at hp
        rcases hp with hp | hp
        · exact hne p hp
        · subst hp
          exact hk
      · intro v0 hv0
        simp [hget] at hv0
      · intro _ h100
        omega
  · -- the key is present: direct return, cache untouched
    have hres : cacheLookupOrInsert cache k computed = (v, cache) := by
      unfold cacheLookupOrInsert
      rw [hget]
    refine ⟨⟨by rw [hres]; exact hlen, by rw [hres]; exact hnd,
      by rw [hres]; exact hne⟩, ?_, ?_, hmk⟩
    · intro v0 hv0
      rw [hres, Option.some.inj hv0]
    · intro hnone
      exact absurd hnone (by simp)

/-- C10 witness: a concrete small cache, on a hit and on an insertion. -/
theorem C10_cache_bounded_witness :
    cacheLookupOrInsert [("a-1", "u")] "a-1" "fresh" = ("u", [("a-1", "u")]) ∧
    (cacheLookupOrInsert [("a-1", "u")] "b-2" "fresh").2.length ≤ 100 := by
  have h := C10_cache_bounded [("a-1", "u")] "b-2" "fresh"
    (by decide) (by decide) (by decide) (by decide)
  have h' := C10_cache_bounded [("a-1", "u")] "a-1" "fresh"
    (by decide) (by decide) (by decide) (by decide)
  exact ⟨h'.2.1 "u" (by decide), h.1.1⟩

end WorkerImage

/-! ## Claims about the named-interval tracker -/

namespace PerformanceLogger

/-- The logger state after `start(name, m1)` when enabled. -/
theorem start_enabled (now : ℚ) (name : String) (meta : Option Meta)
    (s : LoggerState) (h : s.isEnabled = true) :
    start now name meta s =
      { s with
        measurements := mapSet s.measurements name
          { name := name, startTime := now, endTime := none, duration := none,
            metadata := meta },
        log := s.log ++ [.started name meta] } := by
  simp [start, h]

/-- The result of `end(name, m)` when enabled and a record exists. -/
theorem end_enabled_found (now : ℚ) (name : String) (meta : Option Meta)
    (s : LoggerState) (m : PerformanceData) (h : s.isEnabled = true)
    (hm : mapGet s.measurements name = some m) :
    end_ now name meta s =
      (some (now - m.startTime),
       { s with
         measurements := mapSet s.measurements name
           { m with endTime := some now, duration := some (now - m.startTime) },
         log := s.log ++
           [.finished name (now - m.startTime) (logColor (now - m.startTime))
             (mergeMeta m.metadata meta)] }) := by
  simp [end_, h, hm]

/-- Full evaluation of `measure` on a throwing function when enabled. -/
theorem measure_error_eq {ε α : Type} (errStr : ε → String) (t1 t2 : ℚ)
    (name : String) (e : ε) (meta : Option Meta) (s : LoggerState)
    (h : s.isEnabled = true) :
    measure t1 t2 errStr name (Except.error e : Except ε α) meta s =
      (Except.error e,
       { s with
         measurements :=
           mapSet
             (mapSet s.measurements name
               { name := name, startTime := t1, endTime := none,
                 duration := none, metadata := meta })
             name
             { name := name, startTime := t1, endTime := some t2,
               duration := some (t2 - t1), metadata := meta },
         log := s.log ++
           [.started name meta,
            .finished name (t2 - t1) (logColor (t2 - t1))
              (mergeMeta meta (some [("error", errStr e)]))] }) := by
  simp [measure, start_enabled t1 name meta s h, end_, h, mapGet_mapSet_self]

/-- `measureAsync` evaluates exactly like `measure` in the single-threaded
model. -/
theorem measureAsync_eq_measure {ε α : Type} (errStr : ε → String)
    (t1 t2 : ℚ) (name : String) (fn : Except ε α) (meta : Option Meta)
    (s : LoggerState) :
    measureAsync t1 t2 errStr name fn meta s =
      measure t1 t2 errStr name fn meta s := rfl

/-- C1 (amended): with the tracker enabled and a wrapped function throwing
`E`, `measure(name, fn)` and `measureAsync(name, fn)` re-raise exactly `E`
unchanged, and afterwards the tracker holds a completed interval record for
`name` (its `endTime` and `duration` are set) whose stored metadata is the
start metadata; the error metadata (an `error` key holding the rendered
error) is attached to the emitted finished log line, not to the record. -/
theorem C1_measure_error_transparent {ε α : Type} (errStr : ε → String)
    (t1 t2 : ℚ) (name : String) (e : ε) (meta : Option Meta) (s : LoggerState)
    (h : s.isEnabled = true) :
    (measure t1 t2 errStr name (Except.error e : Except ε α) meta s).1 =
      Except.error e ∧
    (measureAsync t1 t2 errStr name (Except.error e : Except ε α) meta s).1 =
      Except.error e ∧
    mapGet (measure t1 t2 errStr name (Except.error e : Except ε α)
        meta s).2.measurements name =
      some { name := name, startTime := t1, endTime := some t2,
             duration := some (t2 - t1), metadata := meta } ∧
    (measure t1 t2 errStr name (Except.error e : Except ε α) meta s).2.log =
      s.log ++
        [.started name meta,
         .finished name (t2 - t1) (logColor (t2 - t1))
           (mergeMeta meta (some [("error", errStr e)]))] ∧
    ("error", errStr e) ∈ mergeMeta meta (some [("error", errStr e)]) := by
  rw [measureAsync_eq_measure, measure_error_eq errStr t1 t2 name e meta s h]
  refine ⟨rfl, rfl, ?_, rfl, ?_⟩
  · exact mapGet_mapSet_self ..
  · exact mem_mergeMeta_right meta _ _ (by simp)

/-- C1 witness: a concrete enabled run through the amended theorem. -/
theorem C1_measure_error_transparent_witness :
    (loggerInit true).isEnabled = true ∧
    (measure 0 1 id "op" (Except.error "boom" : Except String Unit) none
      (loggerInit true)).1 = Except.error "boom" := by
  have h := C1_measure_error_transparent (α := Unit) id 0 1 "op" "boom" none
    (loggerInit true) rfl
  exact ⟨rfl, h.1⟩

/-- C1 counterexample: the claim as stated is false — after
`measure("op", fn)` where `fn` throws, the completed record for `"op"` holds
no error metadata (its metadata is the start metadata, here absent); the
error string appears only in the finished log line. -/
theorem C1_error_metadata_counterexample :
    (measure 0 1 id "op" (Except.error "boom" : Except String Unit) none
      (loggerInit true)).1 = Except.error "boom" ∧
    mapGet (measure 0 1 id "op" (Except.error "boom" : Except String Unit)
        none (loggerInit true)).2.measurements "op" =
      some { name := "op", startTime := 0, endTime := some 1,
             duration := some 1, metadata := none } ∧
    (mapGet (measure 0 1 id "op" (Except.error "boom" : Except String Unit)
        none (loggerInit true)).2.measurements "op").map
      (fun r => (r.metadata.getD []).map Prod.fst) = some [] := by
  refine ⟨rfl, ?_, rfl⟩
  have h := measure_error_eq (α := Unit) id 0 1 "op" "boom" none
    (loggerInit true) rfl
  rw [h]
  simpa using mapGet_mapSet_self
    (mapSet (loggerInit true).measurements "op"
      { name := "op", startTime := 0, endTime := none, duration := none,
        metadata := none }) "op"
    { name := "op", startTime := 0, endTime := some 1, duration := some 1,
      metadata := none }

/-- C2 (amended): when the tracker is enabled, `end(name)` with no record at
all for `name` in the map emits a warning, returns null and creates or
modifies no record; but when a record for `name` exists — even one already
completed by a previous `end` — `end` does not warn: it overwrites the
record's `endTime`/`duration` and returns the fresh duration. -/
theorem C2_end_without_record (t : ℚ) (name : String) (meta : Option Meta)
    (s : LoggerState) (h : s.isEnabled = true) :
    (mapGet s.measurements name = none →
      end_ t name meta s =
        (none, { s with log := s.log ++ [.warnNoMeasurement name] })) ∧
    (∀ m, mapGet s.measurements name = some m →
      end_ t name meta s =
        (some (t - m.startTime),
         { s with
           measurements := mapSet s.measurements name
             { m with endTime := some t, duration := some (t - m.startTime) },
           log := s.log ++
             [.finished name (t - m.startTime) (logColor (t - m.startTime))
               (mergeMeta m.metadata meta)] })) := by
  constructor
  · intro hnone
    simp [end_, h, hnone]
  · intro m hm
    exact end_enabled_found t name meta s m h hm

/-- C2 witness: a concrete enabled state with no record for `"x"`. -/
theorem C2_end_without_record_witness :
    mapGet (loggerInit true).measurements "x" = none ∧
    end_ 5 "x" none (loggerInit true) =
      (none, { loggerInit true with
               log := [LogLine.warnNoMeasurement "x"] }) := by
  have h := (C2_end_without_record 5 "x" none (loggerInit true) rfl).1 rfl
  exact ⟨rfl, by simpa [loggerInit] using h⟩

/-- C2 counterexample: the claim as stated is false — after `start("a")` at 0
and `end("a")` at 1 the record for `"a"` is completed, yet a second
`end("a")` at 2 does not warn and is not a no-op: it returns duration 2 and
overwrites the record. -/
theorem C2_completed_record_counterexample :
    (mapGet (end_ 1 "a" none
        (start 0 "a" none (loggerInit true))).2.measurements "a").map
      PerformanceData.duration = some (some 1) ∧
    (end_ 2 "a" none (end_ 1 "a" none
        (start 0 "a" none (loggerInit true))).2).1 = some 2 ∧
    (end_ 2 "a" none (end_ 1 "a" none
        (start 0 "a" none (loggerInit true))).2).2.measurements ≠
      (end_ 1 "a" none (start 0 "a" none (loggerInit true))).2.measurements ∧
    LogLine.warnNoMeasurement "a" ∉
      (end_ 2 "a" none (end_ 1 "a" none
        (start 0 "a" none (loggerInit true))).2).2.log := by
  refine ⟨?_, ?_, ?_, ?_⟩ <;>
    · norm_num [end_, start, loggerInit, mapGet, mapSet, mergeMeta, logColor]
      try decide

/-- C3: when the tracker is disabled, every operation is a complete no-op
returning neutral values: `start` leaves the state (records and log)
untouched, `end` returns null and leaves the state untouched, and `measure`
and `measureAsync` return exactly the wrapped function's outcome — result or
thrown error — with the state untouched, so the wrapped code behaves exactly
as if called directly. -/
theorem C3_disabled_noop {ε α : Type} (errStr : ε → String) (t1 t2 : ℚ)
    (name : String) (fn : Except ε α) (meta : Option Meta) (s : LoggerState)
    (h : s.isEnabled = false) :
    start t1 name meta s = s ∧
    end_ t2 name meta s = (none, s) ∧
    measure t1 t2 errStr name fn meta s = (fn, s) ∧
    measureAsync t1 t2 errStr name fn meta s = (fn, s) := by
  have hst : start t1 name meta s = s := by simp [start, h]
  have hend : ∀ m : Option Meta, end_ t2 name m s = (none, s) := by
    intro m; simp [end_, h]
  refine ⟨hst, hend meta, ?_, ?_⟩
  · cases fn <;> simp [measure, hst, hend]
  · cases fn <;> simp [measureAsync, hst, hend]

/-- C3 witness: a concrete disabled run, on a succeeding and a throwing
function. -/
theorem C3_disabled_noop_witness :
    (loggerInit false).isEnabled = false ∧
    measure 0 1 id "op" (Except.ok 42 : Except String Nat) none
      (loggerInit false) = (Except.ok 42, loggerInit false) ∧
    measureAsync 0 1 id "op" (Except.error "boom" : Except String Nat) none
      (loggerInit false) = (Except.error "boom", loggerInit false) := by
  refine ⟨rfl, ?_, ?_⟩
  · exact (C3_disabled_noop id 0 1 "op" (Except.ok 42) none
      (loggerInit false) rfl).2.2.1
  · exact (C3_disabled_noop id 0 1 "op" (Except.error "boom") none
      (loggerInit false) rfl).2.2.2

/-- C7 (amended): for an enabled tracker with duplicate-free measurement
keys, `start(name, m1); start(name, m2); end(name, m3)` leaves exactly one
record for `name` — completed, with the second start's time as `startTime`,
`endTime`/`duration` stored, and metadata `m2` (last start wins) — and `end`
returns the duration measured from the second start; the merge of `m2` and
`m3` appears on the emitted finished log line, not on the record. -/
theorem C7_last_start_wins (t1 t2 t3 : ℚ) (name : String) (m1 m2 m3 : Meta)
    (s : LoggerState) (h : s.isEnabled = true)
    (hnd : (s.measurements.map Prod.fst).Nodup) :
    keyCount (end_ t3 name (some m3)
        (start t2 name (some m2)
          (start t1 name (some m1) s))).2.measurements name = 1 ∧
    mapGet (end_ t3 name (some m3)
        (start t2 name (some m2)
          (start t1 name (some m1) s))).2.measurements name =
      some { name := name, startTime := t2, endTime := some t3,
             duration := some (t3 - t2), metadata := some m2 } ∧
    (end_ t3 name (some m3)
        (start t2 name (some m2) (start t1 name (some m1) s))).1 =
      some (t3 - t2) ∧
    (end_ t3 name (some m3)
        (start t2 name (some m2)
          (start t1 name (some m1) s))).2.log =
      s.log ++
        [.started name (some m1), .started name (some m2),
         .finished name (t3 - t2) (logColor (t3 - t2))
           (mergeMeta (some m2) (some m3))] := by
  have e1 := start_enabled t1 name (some m1) s h
  have en1 : (start t1 name (some m1) s).isEnabled = true := by
    rw [e1]; exact h
  have e2 := start_enabled t2 name (some m2) (start t1 name (some m1) s) en1
  have en2 : (start t2 name (some m2)
      (start t1 name (some m1) s)).isEnabled = true := by
    rw [e2]; exact en1
  have hget : mapGet (start t2 name (some m2)
        (start t1 name (some m1) s)).measurements name =
      some { name := name, startTime := t2, endTime := none, duration := none,
             metadata := some m2 } := by
    rw [e2]
    exact mapGet_mapSet_self ..
  have e3 := end_enabled_found t3 name (some m3)
    (start t2 name (some m2) (start t1 name (some m1) s))
    { name := name, startTime := t2, endTime := none, duration := none,
      metadata := some m2 } en2 hget
  have hnd2 : ((start t2 name (some m2)
      (start t1 name (some m1) s)).measurements.map Prod.fst).Nodup := by
    rw [e2, e1]
    exact nodup_keys_mapSet _ name _ (nodup_keys_mapSet _ name _ hnd)
  refine ⟨?_, ?_, ?_, ?_⟩
  · rw [e3]
    exact keyCount_mapSet_nodup _ name _ hnd2
  · rw [e3]
    exact mapGet_mapSet_self ..
  · rw [e3]
  · rw [e3, e2, e1]
    simp

/-- C7 witness: a concrete enabled three-step run. -/
theorem C7_last_start_wins_witness :
    (loggerInit true).isEnabled = true ∧
    (end_ 50 "a" (some [("k3", "3")])
        (start 20 "a" (some [("k2", "2")])
          (start 10 "a" (some [("k1", "1")]) (loggerInit true)))).1 =
      some 30 := by
  have h := C7_last_start_wins 10 20 50 "a" [("k1", "1")] [("k2", "2")]
    [("k3", "3")] (loggerInit true) rfl (by simp [loggerInit])
  refine ⟨rfl, ?_⟩
  rw [h.2.2.1]
  norm_num

/-- C7 counterexample: the claim as stated is false — after
`start("a", m1); start("a", m2); end("a", m3)` the stored record's metadata
is exactly `m2`; the key of `m3` is absent from the record (the merged
metadata is only logged). -/
theorem C7_record_metadata_counterexample :
    (mapGet (end_ 50 "a" (some [("k3", "3")])
        (start 20 "a" (some [("k2", "2")])
          (start 10 "a" (some [("k1", "1")])
            (loggerInit true)))).2.measurements "a").map
      PerformanceData.metadata = some (some [("k2", "2")]) ∧
    (mapGet (end_ 50 "a" (some [("k3", "3")])
        (start 20 "a" (some [("k2", "2")])
          (start 10 "a" (some [("k1", "1")])
            (loggerInit true)))).2.measurements "a").map
      (fun r => (r.metadata.getD []).map Prod.fst) = some ["k2"] := by
  refine ⟨?_, ?_⟩ <;>
    norm_num [end_, start, loggerInit, mapGet, mapSet, mergeMeta, logColor]

end PerformanceLogger
